import Mathlib

/-!
# Verification of the latticecli permission / approval / audit / checkpoint core

Shallow embedding, in Lean 4, of the core components of the repository:

* `claude_clone/core/permission.py` — `PermissionRule` and `PermissionManager`
* `claude_clone/domain/entities/approval.py` — `Approval`
* `claude_clone/domain/entities/run.py` — `Run`
* `claude_clone/domain/entities/task.py` — `Task`
* `claude_clone/adapters/persistence/in_memory/event_repository.py` —
  `InMemoryEventRepository`
* `claude_clone/backends/file_checkpoint.py` — `FileCheckpointManager`

Python conventions are modelled as follows: machine-level `datetime` values
become `Nat` instants supplied as explicit parameters; methods that mutate
`self` and may `raise` become functions returning the updated value together
with an `Option String` error message (errors are raised before any field is
written exactly when the Python statement order does so); `dict[str, Any]`
argument maps become `String → Option String` (the permission engine only
ever compares the salient argument against a string pattern); text handling
(`str.lower`, `\w`) is modelled for ASCII, which covers every string
constant appearing in the code.
-/

namespace LatticeCli

/-! ## String helpers (Python `in`, `str.lower`, truthiness of strings) -/

/-- `listSubOf pat s` decides whether `pat` occurs as a contiguous
sublist of `s`; this models Python's substring operator `pat in s`. -/
def listSubOf (pat : List Char) : List Char → Bool
  | [] => pat.isEmpty
  | c :: t => pat.isPrefixOf (c :: t) || listSubOf pat t

/-- Python `pat in s` on strings (substring containment). -/
def strContains (s pat : String) : Bool :=
  listSubOf pat.toList s.toList

/-- Python `s.startswith(pre)`. -/
def strStartsWith (s pre : String) : Bool :=
  pre.toList.isPrefixOf s.toList

/-- Fuel-driven worker for `strReplace`; the fuel is the length of the
remaining text, which bounds the number of loop steps. -/
def listReplaceAux (pat rep : List Char) : Nat → List Char → List Char
  | 0, s => s
  | _ + 1, [] => []
  | fuel + 1, c :: t =>
    if ¬ pat.isEmpty ∧ pat.isPrefixOf (c :: t) then
      rep ++ listReplaceAux pat rep fuel ((c :: t).drop pat.length)
    else
      c :: listReplaceAux pat rep fuel t

/-- Python `s.replace(pat, rep)`: replaces every occurrence, scanning left
to right without overlap. -/
def strReplace (s pat rep : String) : String :=
  ⟨listReplaceAux pat.toList rep.toList s.toList.length s.toList⟩

/-- Python `s.strip()`: drops leading and trailing whitespace. -/
def pyStrip (s : String) : String :=
  ⟨((s.toList.dropWhile Char.isWhitespace).reverse.dropWhile Char.isWhitespace).reverse⟩

/-- Python `s.lower()`, modelled for ASCII characters. -/
def strLower (s : String) : String :=
  ⟨s.toList.map Char.toLower⟩

/-- Python `sep.join(parts)`. -/
def strJoin (sep : String) : List String → String
  | [] => ""
  | [x] => x
  | x :: xs => x ++ sep ++ strJoin sep xs

/-- Python `a or b` on optional strings: `a` is falsy when it is `None`
or the empty string, in which case the result is `b`. -/
def pyOr (a b : Option String) : Option String :=
  match a with
  | some s => if s = "" then b else some s
  | none => b

/-! ## Permission engine (`core/permission.py`) -/

/-- `PermissionMode` from `core/permission.py`. -/
inductive PermissionMode where
  | default
  | plan
  | accept_edits
  | bypass
  deriving DecidableEq, Repr

/-- `PermissionMode(mode)` with the `except ValueError` fallback to
`DEFAULT` used in `PermissionManager.__init__`. -/
def PermissionMode.ofString (s : String) : PermissionMode :=
  if s = "default" then .default
  else if s = "plan" then .plan
  else if s = "accept_edits" then .accept_edits
  else if s = "bypass" then .bypass
  else .default

/-- `PermissionResult` from `core/permission.py`. -/
inductive PermissionResult where
  | allow
  | deny
  | ask
  deriving DecidableEq, Repr

/-- Python `\w` (re.match word character), modelled for ASCII. -/
def isWordChar (c : Char) : Bool :=
  c.isAlphanum || c = '_'

/-- `PermissionRule` from `core/permission.py`: a tool name plus an
optional argument pattern. -/
structure PermissionRule where
  tool_name : String
  pattern : Option String
  deriving DecidableEq, Repr

/-- `PermissionRule.parse`: matches `^(\w+)(?:\((.+)\))?$` against the
stripped rule string; on regex failure the whole stripped string becomes the
tool name with no pattern.  (`.+` is greedy, never crosses a newline, and
the group must be non-empty.) -/
def PermissionRule.parse (rule : String) : PermissionRule :=
  let s := pyStrip rule
  let w := s.toList.takeWhile isWordChar
  let rest := s.toList.drop w.length
  if w.isEmpty then
    { tool_name := s, pattern := none }
  else if rest.isEmpty then
    { tool_name := ⟨w⟩, pattern := none }
  else
    -- the remainder must be "(" ++ inner ++ ")" with inner non-empty and
    -- free of newlines for the regex to match
    let inner := (rest.drop 1).dropLast
    if rest.head? = some '(' ∧ rest.getLast? = some ')' ∧
        ¬ inner.isEmpty ∧ ¬ inner.contains '\n' then
      { tool_name := ⟨w⟩, pattern := some ⟨inner⟩ }
    else
      { tool_name := s, pattern := none }

/-- Token alphabet for the translated `**` glob regex of
`PermissionRule._pattern_matches`: literal characters plus the three
placeholder symbols `(?:.*/)?`, `.*` and `[^/]*`. -/
inductive PatSym where
  | lit (c : Char)
  | dss  -- from "**/", becomes "(?:.*/)?"
  | ds   -- from "**",  becomes ".*"
  | ss   -- from "*",   becomes "[^/]*"
  deriving DecidableEq, Repr

/-- First replacement stage: every occurrence of `**/` (left to right,
non-overlapping, as `str.replace`) becomes the `dss` placeholder. -/
def replaceDss : List PatSym → List PatSym
  | .lit '*' :: .lit '*' :: .lit '/' :: rest => .dss :: replaceDss rest
  | x :: rest => x :: replaceDss rest
  | [] => []

/-- Second replacement stage: remaining `**` becomes the `ds` placeholder. -/
def replaceDs : List PatSym → List PatSym
  | .lit '*' :: .lit '*' :: rest => .ds :: replaceDs rest
  | x :: rest => x :: replaceDs rest
  | [] => []

/-- Third replacement stage: remaining single `*` becomes `ss`. -/
def replaceSs : List PatSym → List PatSym
  | .lit '*' :: rest => .ss :: replaceSs rest
  | x :: rest => x :: replaceSs rest
  | [] => []

/-- The staged placeholder substitution performed on a `**`-bearing pattern
before it is turned into a regex.  Escaping `.` as `\.` only makes the dot
literal in the regex, which is how `lit '.'` already behaves here; regex
metacharacters other than the ones the code constructs are modelled as
literal characters. -/
def starTokens (pattern : String) : List PatSym :=
  replaceSs (replaceDs (replaceDss (pattern.toList.map PatSym.lit)))

/-- Weight used to justify termination of `tokMatch` (the `dss` symbol can
be expanded into the two symbols `ds`, `lit '/'`). -/
def symWeight : PatSym → Nat
  | .dss => 3
  | _ => 1

/-- Total weight of a token list. -/
def patWeight (l : List PatSym) : Nat :=
  (l.map symWeight).sum

theorem patWeight_cons (x : PatSym) (l : List PatSym) :
    patWeight (x :: l) = symWeight x + patWeight l := by
  simp [patWeight]

/-- Anchored matching of the translated `**` regex against a value, exactly
the semantics of the regex text built in `_pattern_matches`: `dss` matches
the empty string or any prefix ending in `/`, `ds` matches anything, `ss`
matches any run of non-`/` characters, and a literal matches itself. -/
def tokMatch : List PatSym → List Char → Bool
  | [], v => v.isEmpty
  | .lit c :: p, v =>
    match v with
    | [] => false
    | d :: vt => c = d && tokMatch p vt
  | .ss :: p, v =>
    tokMatch p v ||
      match v with
      | [] => false
      | d :: vt => decide (d ≠ '/') && tokMatch (.ss :: p) vt
  | .ds :: p, v =>
    tokMatch p v ||
      match v with
      | [] => false
      | _ :: vt => tokMatch (.ds :: p) vt
  | .dss :: p, v => tokMatch p v || tokMatch (.ds :: .lit '/' :: p) v
  termination_by p v => patWeight p + v.length
  decreasing_by
    all_goals simp [patWeight_cons, symWeight]
    all_goals omega

/-- Bracket-expression scan of `fnmatch.translate`: given the characters
after a `[` (and after the skipped lead-in, see `classSkip`), look for the
closing `]`; returns the class body and the remainder, or `none` when the
bracket is unterminated. -/
def scanToClose : List Char → Option (List Char × List Char)
  | [] => none
  | c :: t =>
    if c = ']' then some ([], t)
    else
      match scanToClose t with
      | none => none
      | some (b, r) => some (c :: b, r)

/-- The lead-in of a bracket expression: a `!` directly after `[` is the
negation marker, and a `]` directly after that (or directly after `[`) is a
literal member, exactly as `fnmatch.translate` skips them before searching
for the closing `]`. -/
def classSkip (l : List Char) : List Char × List Char :=
  match l with
  | '!' :: ']' :: t => (['!', ']'], t)
  | '!' :: t => (['!'], t)
  | ']' :: t => ([']'], t)
  | t => ([], t)

/-- Splits the characters after a `[` into the whole class content
(lead-in included) and the remainder after the closing `]`. -/
def classSplit (l : List Char) : Option (List Char × List Char) :=
  match scanToClose (classSkip l).2 with
  | none => none
  | some (b, r) => some ((classSkip l).1 ++ b, r)

theorem scanToClose_length : ∀ l b r, scanToClose l = some (b, r) → r.length < l.length := by
  intro l
  induction l with
  | nil => intro b r h; simp [scanToClose] at h
  | cons c t ih =>
    intro b r h
    simp only [scanToClose] at h
    split at h
    · simp only [Option.some.injEq, Prod.mk.injEq] at h
      simp [← h.2]
    · split at h
      · exact absurd h (by simp)
      · rename_i b' r' hs
        simp only [Option.some.injEq, Prod.mk.injEq] at h
        have := ih b' r' hs
        rw [← h.2]
        simp only [List.length_cons]
        omega

theorem classSkip_length (l : List Char) : (classSkip l).2.length ≤ l.length := by
  unfold classSkip
  split <;> simp <;> omega

theorem classSplit_length (l b r : List Char) (h : classSplit l = some (b, r)) :
    r.length < l.length := by
  unfold classSplit at h
  cases hs : scanToClose (classSkip l).2 with
  | none => rw [hs] at h; exact absurd h (by simp)
  | some p =>
    obtain ⟨b', r'⟩ := p
    rw [hs] at h
    simp only [Option.some.injEq, Prod.mk.injEq] at h
    have h1 := scanToClose_length _ b' r' hs
    have h2 := classSkip_length l
    rw [← h.2]
    omega

/-- Items of a bracket expression: each item is an inclusive character
range (a single character `c` is the range `c`–`c`); a `-` that does not
sit between two characters is literal, as in `fnmatch.translate`. -/
def parseClassItems : List Char → List (Char × Char)
  | [] => []
  | [c] => [(c, c)]
  | a :: '-' :: [] => [(a, a), ('-', '-')]
  | a :: '-' :: b :: rest => (a, b) :: parseClassItems rest
  | a :: rest => (a, a) :: parseClassItems rest

/-- Does character `c` belong to the bracket expression with the given
content (leading `!` negates)?  An inverted range matches no character,
mirroring `fnmatch.translate` discarding empty ranges. -/
def classMatch (content : List Char) (c : Char) : Bool :=
  let (neg, items) : Bool × List Char :=
    match content with
    | '!' :: t => (true, t)
    | t => (false, t)
  let hit := (parseClassItems items).any (fun r => decide (r.1 ≤ c ∧ c ≤ r.2))
  if neg then !hit else hit

/-- `fnmatch.fnmatch(value, pattern)` semantics (POSIX case handling, so no
case folding): `*` matches any sequence, `?` any single character, bracket
expressions as in `classMatch`, an unterminated `[` is literal, and the
whole pattern is anchored. -/
def globMatch : List Char → List Char → Bool
  | [], v => v.isEmpty
  | '*' :: p, v =>
    globMatch p v ||
      match v with
      | [] => false
      | _ :: vt => globMatch ('*' :: p) vt
  | '?' :: p, v =>
    match v with
    | [] => false
    | _ :: vt => globMatch p vt
  | '[' :: p, v =>
    match h : classSplit p with
    | none =>
      match v with
      | [] => false
      | d :: vt => d = '[' && globMatch p vt
    | some (content, rest) =>
      match v with
      | [] => false
      | d :: vt => classMatch content d && globMatch rest vt
  | c :: p, v =>
    match v with
    | [] => false
    | d :: vt => c = d && globMatch p vt
  termination_by p v => p.length + v.length
  decreasing_by
    all_goals simp
    all_goals try omega
    · have := classSplit_length _ _ _ h
      omega

/-- `fnmatch.fnmatch` on strings. -/
def fnmatchMatch (value pattern : String) : Bool :=
  globMatch pattern.toList value.toList

/-- `PermissionRule._pattern_matches`: prefix patterns containing `:*` take
priority, then `**` glob patterns translated to an anchored regex, then
plain `fnmatch` globbing. -/
def patternMatches (pattern value : String) : Bool :=
  if strContains pattern ":*" then
    strStartsWith value (strReplace pattern ":*" "")
  else if strContains pattern "**" then
    tokMatch (starTokens pattern) value.toList
  else
    fnmatchMatch value pattern

/-- `PermissionRule._get_match_value`: picks the salient argument for the
tool, using Python `or` (so an empty string falls through). -/
def getMatchValue (tool_name : String) (args : String → Option String) : Option String :=
  if tool_name = "Read" ∨ tool_name = "Edit" ∨ tool_name = "Write" ∨
      tool_name = "read_tool" ∨ tool_name = "edit_tool" ∨ tool_name = "write_tool" then
    args "file_path"
  else if tool_name = "Bash" ∨ tool_name = "bash_tool" then
    args "command"
  else if tool_name = "Grep" ∨ tool_name = "grep_tool" then
    pyOr (args "path") (args "pattern")
  else if tool_name = "Glob" ∨ tool_name = "glob_tool" then
    pyOr (args "path") (args "pattern")
  else
    pyOr (pyOr (args "file_path") (args "path")) (args "command")

/-- `PermissionRule.matches`. -/
def PermissionRule.matches (rule : PermissionRule) (tool_name : String)
    (args : String → Option String) : Bool :=
  if rule.tool_name ≠ tool_name then false
  else
    match rule.pattern with
    | none => true
    | some pat =>
      match getMatchValue tool_name args with
      | none => false
      | some v => patternMatches pat v

/-- `PermissionManager.SAFE_TOOLS`. -/
def SAFE_TOOLS : List String :=
  ["Read", "read_tool", "Glob", "glob_tool", "Grep", "grep_tool"]

/-- `PermissionManager.WRITE_TOOLS`. -/
def WRITE_TOOLS : List String :=
  ["Edit", "edit_tool", "Write", "write_tool"]

/-- `PermissionManager.EXEC_TOOLS`. -/
def EXEC_TOOLS : List String :=
  ["Bash", "bash_tool"]

/-- `PermissionManager` after `__init__`: parsed mode and rule lists. -/
structure PermissionManager where
  mode : PermissionMode
  allow_rules : List PermissionRule
  deny_rules : List PermissionRule
  deriving Repr

/-- `PermissionManager.__init__` from a mode string and rule strings. -/
def PermissionManager.init (mode : String) (allow_rules deny_rules : List String) :
    PermissionManager :=
  { mode := PermissionMode.ofString mode
    allow_rules := allow_rules.map PermissionRule.parse
    deny_rules := deny_rules.map PermissionRule.parse }

/-- `PermissionManager._check_by_mode`. -/
def checkByMode (mode : PermissionMode) (tool_name : String) : PermissionResult :=
  match mode with
  | .bypass => .allow
  | .plan => if SAFE_TOOLS.contains tool_name then .allow else .ask
  | .accept_edits =>
    if SAFE_TOOLS.contains tool_name ∨ WRITE_TOOLS.contains tool_name then .allow
    else .ask
  | .default => if SAFE_TOOLS.contains tool_name then .allow else .ask

/-- `PermissionManager.check`: deny rules first, then allow rules, then the
mode default. -/
def PermissionManager.check (pm : PermissionManager) (tool_name : String)
    (args : String → Option String) : PermissionResult :=
  if pm.deny_rules.any (fun r => r.matches tool_name args) then .deny
  else if pm.allow_rules.any (fun r => r.matches tool_name args) then .allow
  else checkByMode pm.mode tool_name

/-- The empty argument map (`args or {}` in `check`). -/
def emptyArgs : String → Option String := fun _ => none

/-! ## Run entity (`domain/entities/run.py`)

Methods that mutate `self` and may raise `InvalidStateError` become
functions returning the updated run together with an `Option String`
holding the raised message; the returned run reflects exactly the fields
written before the raise (here: none, since the check comes first). -/

/-- `RunStatus`. -/
inductive RunStatus where
  | pending
  | running
  | completed
  | failed
  | cancelled
  deriving DecidableEq, Repr

/-- `RunStatus.value`. -/
def RunStatus.value : RunStatus → String
  | .pending => "pending"
  | .running => "running"
  | .completed => "completed"
  | .failed => "failed"
  | .cancelled => "cancelled"

/-- The `Run` dataclass. -/
structure Run where
  id : String
  goal : String
  status : RunStatus
  repo_root : String
  branch : Option String
  created_at : Nat
  updated_at : Nat
  deriving DecidableEq, Repr

/-- `Run._VALID_TRANSITIONS`. -/
def runValidTransitions : RunStatus → List RunStatus
  | .pending => [.running, .cancelled]
  | .running => [.completed, .failed, .cancelled]
  | .completed => []
  | .failed => []
  | .cancelled => []

/-- `Run._can_transition_to`. -/
def runCanTransitionTo (r : Run) (new : RunStatus) : Bool :=
  (runValidTransitions r.status).contains new

/-- `Run._transition_to`: raise before any field is written. -/
def runTransitionTo (r : Run) (new : RunStatus) (now : Nat) : Run × Option String :=
  if runCanTransitionTo r new then
    ({ r with status := new, updated_at := now }, none)
  else
    (r, some ("Cannot transition from " ++ r.status.value ++ " to " ++ new.value))

/-- `Run.start`. -/
def runStart (r : Run) (now : Nat) : Run × Option String :=
  runTransitionTo r .running now

/-- `Run.complete`. -/
def runComplete (r : Run) (now : Nat) : Run × Option String :=
  runTransitionTo r .completed now

/-- `Run.fail`. -/
def runFail (r : Run) (now : Nat) : Run × Option String :=
  runTransitionTo r .failed now

/-- `Run.cancel`. -/
def runCancel (r : Run) (now : Nat) : Run × Option String :=
  runTransitionTo r .cancelled now

/-- `Run.is_terminal`. -/
def runIsTerminal (r : Run) : Bool :=
  r.status = .completed ∨ r.status = .failed ∨ r.status = .cancelled

/-- `Run.is_active`. -/
def runIsActive (r : Run) : Bool :=
  r.status = .pending ∨ r.status = .running

/-- The four mutating operations of `Run`, for stating properties about
arbitrary operation sequences. -/
inductive RunOp where
  | start
  | complete
  | fail
  | cancel
  deriving DecidableEq, Repr

/-- Apply one operation; a raised `InvalidStateError` leaves the caller
holding the unchanged object, as in Python. -/
def runApplyOp (r : Run) (op : RunOp) (now : Nat) : Run :=
  match op with
  | .start => (runStart r now).1
  | .complete => (runComplete r now).1
  | .fail => (runFail r now).1
  | .cancel => (runCancel r now).1

/-- Apply a sequence of operations (each paired with its instant). -/
def runApplyOps (r : Run) : List (RunOp × Nat) → Run
  | [] => r
  | (op, now) :: rest => runApplyOps (runApplyOp r op now) rest

/-! ## Task entity (`domain/entities/task.py`) -/

/-- `TaskStatus`. -/
inductive TaskStatus where
  | pending
  | in_progress
  | completed
  | failed
  | blocked
  deriving DecidableEq, Repr

/-- `TaskStatus.value`. -/
def TaskStatus.value : TaskStatus → String
  | .pending => "pending"
  | .in_progress => "in_progress"
  | .completed => "completed"
  | .failed => "failed"
  | .blocked => "blocked"

/-- The `Task` dataclass. -/
structure Task where
  id : String
  run_id : String
  title : String
  description : String
  status : TaskStatus
  owner_worker_id : Option String
  priority : Int
  input_refs : List String
  output_refs : List String
  error_message : Option String
  created_at : Nat
  updated_at : Nat
  deriving DecidableEq, Repr

/-- `Task.assign`. -/
def taskAssign (t : Task) (worker_id : String) (now : Nat) : Task × Option String :=
  if t.status ≠ .pending then
    (t, some ("Cannot assign task in " ++ t.status.value ++ " status"))
  else
    ({ t with owner_worker_id := some worker_id, status := .in_progress,
              updated_at := now }, none)

/-- `Task.block`; an empty reason is falsy and leaves `error_message`
untouched. -/
def taskBlock (t : Task) (reason : String) (now : Nat) : Task × Option String :=
  if t.status ≠ .in_progress then
    (t, some ("Cannot block task in " ++ t.status.value ++ " status"))
  else
    ({ t with status := .blocked,
              error_message := if reason ≠ "" then some reason else t.error_message,
              updated_at := now }, none)

/-- `Task.unblock`. -/
def taskUnblock (t : Task) (now : Nat) : Task × Option String :=
  if t.status ≠ .blocked then
    (t, some ("Cannot unblock task in " ++ t.status.value ++ " status"))
  else
    ({ t with status := .in_progress, error_message := none, updated_at := now }, none)

/-- `Task.complete`; `if output_refs:` is false for `None` and for `[]`. -/
def taskComplete (t : Task) (output_refs : Option (List String)) (now : Nat) :
    Task × Option String :=
  if t.status ≠ .in_progress then
    (t, some ("Cannot complete task in " ++ t.status.value ++ " status"))
  else
    ({ t with status := .completed,
              output_refs :=
                match output_refs with
                | some l => if l.isEmpty then t.output_refs else t.output_refs ++ l
                | none => t.output_refs,
              updated_at := now }, none)

/-- `Task.fail`. -/
def taskFail (t : Task) (error_message : String) (now : Nat) : Task × Option String :=
  if t.status ≠ .in_progress then
    (t, some ("Cannot fail task in " ++ t.status.value ++ " status"))
  else
    ({ t with status := .failed, error_message := some error_message,
              updated_at := now }, none)

/-! ## Approval entity (`domain/entities/approval.py`) -/

/-- `ApprovalStatus`. -/
inductive ApprovalStatus where
  | pending
  | approved
  | rejected
  | expired
  deriving DecidableEq, Repr

/-- `ApprovalStatus.value`. -/
def ApprovalStatus.value : ApprovalStatus → String
  | .pending => "pending"
  | .approved => "approved"
  | .rejected => "rejected"
  | .expired => "expired"

/-- `ApprovalType`. -/
inductive ApprovalType where
  | file_edit
  | file_create
  | file_delete
  | bash_command
  | git_push
  deriving DecidableEq, Repr

/-- `ApprovalType.value`. -/
def ApprovalType.value : ApprovalType → String
  | .file_edit => "file_edit"
  | .file_create => "file_create"
  | .file_delete => "file_delete"
  | .bash_command => "bash_command"
  | .git_push => "git_push"

/-- The `Approval` dataclass. -/
structure Approval where
  id : String
  run_id : String
  type : ApprovalType
  target : String
  status : ApprovalStatus
  diff_content : Option String
  requester_worker_id : Option String
  requester_task_id : Option String
  risk_score : Nat
  risk_reason : String
  created_at : Nat
  expires_at : Option Nat
  resolved_at : Option Nat
  resolved_by : Option String
  comment : String
  deriving DecidableEq, Repr

/-- `Approval.is_expired`, with `datetime.utcnow()` passed in as `now`
(datetime objects are always truthy, so `if self.expires_at` is `isSome`). -/
def approvalIsExpired (a : Approval) (now : Nat) : Bool :=
  if a.status = .expired then true
  else
    match a.expires_at with
    | some t => now > t
    | none => false

/-- `Approval._resolve`: both checks precede every field write. -/
def approvalResolve (a : Approval) (new : ApprovalStatus) (resolved_by comment : String)
    (now : Nat) : Approval × Option String :=
  if a.status ≠ .pending then
    (a, some ("Cannot resolve approval in " ++ a.status.value ++ " status"))
  else if approvalIsExpired a now then
    (a, some "Cannot resolve expired approval")
  else
    ({ a with status := new, resolved_at := some now,
              resolved_by := some resolved_by, comment := comment }, none)

/-- `Approval.approve`. -/
def approvalApprove (a : Approval) (resolved_by comment : String) (now : Nat) :
    Approval × Option String :=
  approvalResolve a .approved resolved_by comment now

/-- `Approval.reject`. -/
def approvalReject (a : Approval) (resolved_by comment : String) (now : Nat) :
    Approval × Option String :=
  approvalResolve a .rejected resolved_by comment now

/-- `Approval.expire`. -/
def approvalExpire (a : Approval) (now : Nat) : Approval × Option String :=
  if a.status ≠ .pending then
    (a, some ("Cannot expire approval in " ++ a.status.value ++ " status"))
  else
    ({ a with status := .expired, resolved_at := some now }, none)

/-- `risk_by_type` inside `Approval.assess_risk` (`.get(type, 2)` can never
fall back since every member is listed). -/
def baseRisk : ApprovalType → Nat
  | .file_edit => 2
  | .file_create => 2
  | .file_delete => 4
  | .bash_command => 3
  | .git_push => 4

/-- `dangerous_patterns` from `Approval.assess_risk`. -/
def dangerousPatterns : List String :=
  ["rm ", "sudo", "DROP", "DELETE", "--force", "-rf"]

/-- `sensitive_paths` from `Approval.assess_risk`. -/
def sensitivePaths : List String :=
  [".env", "credentials", "secret", "password", ".git/"]

/-- One step of the dangerous-pattern loop in `assess_risk`. -/
def riskStepDangerous (target : String) (acc : Nat × List String) (p : String) :
    Nat × List String :=
  if strContains target p then
    (min 5 (acc.1 + 1), acc.2 ++ ["contains '" ++ p ++ "'"])
  else acc

/-- One step of the sensitive-path loop in `assess_risk`. -/
def riskStepSensitive (target : String) (acc : Nat × List String) (p : String) :
    Nat × List String :=
  if strContains (strLower target) p then
    (min 5 (acc.1 + 1), acc.2 ++ ["touches sensitive path '" ++ p ++ "'"])
  else acc

/-- `Approval.assess_risk`, as a pure function of the type and target:
returns the `(score, reason)` pair. -/
def assessRiskPair (ty : ApprovalType) (target : String) : Nat × String :=
  let acc1 := dangerousPatterns.foldl (riskStepDangerous target) (baseRisk ty, [])
  let acc2 := sensitivePaths.foldl (riskStepSensitive target) acc1
  (acc2.1,
    if acc2.2.isEmpty then "standard " ++ ty.value
    else strJoin ", " acc2.2)

/-- `Approval.assess_risk` including its write-back of `risk_score` and
`risk_reason` onto the entity. -/
def assessRisk (a : Approval) : Approval :=
  let p := assessRiskPair a.type a.target
  { a with risk_score := p.1, risk_reason := p.2 }

/-- `Approval.create`; the random `uuid4` hex fragment and
`datetime.utcnow()` are supplied as the `uuidHex` and `now` parameters. -/
def approvalCreate (run_id : String) (approval_type : ApprovalType) (target : String)
    (diff_content : Option String) (worker_id task_id : Option String)
    (uuidHex : String) (now : Nat) : Approval :=
  assessRisk
    { id := "apr-" ++ uuidHex
      run_id := run_id
      type := approval_type
      target := target
      status := .pending
      diff_content := diff_content
      requester_worker_id := worker_id
      requester_task_id := task_id
      risk_score := 1
      risk_reason := ""
      created_at := now
      expires_at := none
      resolved_at := none
      resolved_by := none
      comment := "" }

/-! ## In-memory event repository
(`adapters/persistence/in_memory/event_repository.py`) -/

/-- The `Event` dataclass (frozen); the free-form `data` payload is kept
opaque. -/
structure Event where
  id : Nat
  run_id : String
  type : String
  timestamp : Nat
  data : List (String × String)
  deriving DecidableEq, Repr

/-- `InMemoryEventRepository` state: `self._events` and `self._next_id`. -/
structure InMemoryEventRepository where
  events : List Event
  nextId : Nat
  deriving Repr

/-- `InMemoryEventRepository.__init__`. -/
def eventRepoInit : InMemoryEventRepository :=
  { events := [], nextId := 1 }

/-- `InMemoryEventRepository.next_id`: returns the counter and increments
it. -/
def eventRepoNextId (st : InMemoryEventRepository) : Nat × InMemoryEventRepository :=
  (st.nextId, { st with nextId := st.nextId + 1 })

/-- `InMemoryEventRepository.save`. -/
def eventRepoSave (st : InMemoryEventRepository) (e : Event) : InMemoryEventRepository :=
  { st with events := st.events ++ [e] }

/-- The identities produced by `n` sequential `next_id` calls, in call
order (this is how `append` obtains each stored event's identity). -/
def eventRepoIds (st : InMemoryEventRepository) : Nat → List Nat × InMemoryEventRepository
  | 0 => ([], st)
  | n + 1 =>
    let p := eventRepoNextId st
    let q := eventRepoIds p.2 n
    (p.1 :: q.1, q.2)

/-! ## Checkpoint manager (`backends/file_checkpoint.py`)

The filesystem is modelled explicitly: per-path state (absent, existing but
unreadable as UTF-8, or readable with content and mtime) plus a per-path
writability flag (an `OSError` on `write_text` corresponds to a path whose
flag is off).  `track_file`'s path normalization (`Path.resolve`) is
modelled as the identity on already-canonical path strings, and `uuid4`
checkpoint identities become fresh numeric identities drawn from a
counter. -/

/-- What a path currently holds. -/
inductive FileState where
  | absent
  | unreadable
  | readable (content : String) (mtime : Nat)
  deriving DecidableEq, Repr

/-- Is the path an existing, UTF-8-readable regular file? -/
def FileState.isReadable : FileState → Bool
  | .readable _ _ => true
  | _ => false

/-- The filesystem: contents and writability per (canonical) path. -/
structure FileSys where
  entries : String → FileState
  writable : String → Bool

/-- `Path.write_text` during `restore`: rewrites the content when the path
is writable (the mtime after a write is environment-chosen; it is modelled
as 0, and no claim depends on it). -/
def writeText (fs : FileSys) (p : String) (content : String) : FileSys :=
  { fs with entries := fun q => if q = p then .readable content 0 else fs.entries q }

/-- `FileSnapshot` (`interfaces/checkpoint_manager.py`). -/
structure FileSnapshot where
  path : String
  content : String
  mtime : Nat
  deriving DecidableEq, Repr

/-- `FileCheckpoint`. -/
structure FileCheckpoint where
  id : Nat
  turn : Nat
  timestamp : Nat
  message : String
  snapshots : List FileSnapshot
  deriving DecidableEq, Repr

/-- Association-list lookup modelling a Python `dict` and the checkpoint
file store (first binding wins; re-saving prepends). -/
def lookupA {α : Type} : List (String × α) → String → Option α
  | [], _ => none
  | (k, v) :: t, q => if k = q then some v else lookupA t q

/-- Numeric-key variant for the checkpoint store. -/
def lookupN {α : Type} : List (Nat × α) → Nat → Option α
  | [], _ => none
  | (k, v) :: t, q => if k = q then some v else lookupN t q

/-- `FileCheckpointManager` mutable state: the insertion-ordered
`_tracked_files` dict, the turn counter, the saved checkpoint files, and
the fresh-identity counter standing in for `uuid4`. -/
structure CkptManager where
  tracked : List (String × Option FileSnapshot)
  turn : Nat
  store : List (Nat × FileCheckpoint)
  nextCkptId : Nat

/-- What `track_file` records for a path: the current content and mtime
when the path holds a readable file, `None` otherwise (absent file, or
`OSError`/`UnicodeDecodeError` while reading). -/
def snapVal (fs : FileSys) (p : String) : Option FileSnapshot :=
  match fs.entries p with
  | .readable c m => some { path := p, content := c, mtime := m }
  | _ => none

/-- `FileCheckpointManager.track_file`: a no-op when the path is already a
key of the dict this epoch; otherwise records `snapVal`. -/
def trackFile (st : CkptManager) (fs : FileSys) (p : String) : CkptManager :=
  if (lookupA st.tracked p).isSome then st
  else { st with tracked := st.tracked ++ [(p, snapVal fs p)] }

/-- A sequence of further `track_file` calls, each against the filesystem
as it stood at that call. -/
def trackMany (st : CkptManager) : List (FileSys × String) → CkptManager
  | [] => st
  | (fs, p) :: rest => trackMany (trackFile st fs p) rest

/-- `FileCheckpointManager.create`: materializes the non-`None` snapshots
in dict order, saves the checkpoint, and clears the tracked set. -/
def ckptCreate (st : CkptManager) (message : String) (now : Nat) :
    FileCheckpoint × CkptManager :=
  let snapshots := st.tracked.filterMap (fun kv => kv.2)
  let ck : FileCheckpoint :=
    { id := st.nextCkptId, turn := st.turn, timestamp := now,
      message := message, snapshots := snapshots }
  (ck, { st with store := (ck.id, ck) :: st.store, tracked := [],
                 nextCkptId := st.nextCkptId + 1 })

/-- The per-snapshot loop of `restore`: write each snapshot back, skipping
(`except OSError: continue`) paths that cannot be written, and report the
successfully restored paths in loop order. -/
def restoreSnapshots : List FileSnapshot → FileSys → List String × FileSys
  | [], fs => ([], fs)
  | s :: rest, fs =>
    if fs.writable s.path then
      let fs' := writeText fs s.path s.content
      let q := restoreSnapshots rest fs'
      (s.path :: q.1, q.2)
    else
      restoreSnapshots rest fs

/-- `FileCheckpointManager.restore`: raises `CheckpointNotFoundError` on an
unknown identity, else best-effort rewrites every snapshot. -/
def ckptRestore (st : CkptManager) (fs : FileSys) (checkpoint_id : Nat) :
    Except String (List String × FileSys) :=
  match lookupN st.store checkpoint_id with
  | none => .error ("Checkpoint not found: " ++ toString checkpoint_id)
  | some ck => .ok (restoreSnapshots ck.snapshots fs)

/-- Dict invariant used by the round-trip theorems: every recorded snapshot
is keyed by its own path (true of every state `track_file` can build). -/
def trackedCoherent (l : List (String × Option FileSnapshot)) : Prop :=
  ∀ kv ∈ l, ∀ s, kv.2 = some s → s.path = kv.1

instance : DecidablePred trackedCoherent := fun l =>
  inferInstanceAs (Decidable (∀ kv ∈ l, ∀ s, kv.2 = some s → s.path = kv.1))

/-- The track → create → restore scenario of the round-trip claims: track
`p` against `fs0`, optionally track further files (`L`), create a
checkpoint, mutate the filesystem to `fs1`, and restore by the returned
identity. -/
def roundTrip (st0 : CkptManager) (fs0 : FileSys) (p : String)
    (L : List (FileSys × String)) (msg : String) (now : Nat) (fs1 : FileSys) :
    FileCheckpoint × Except String (List String × FileSys) :=
  let pr := ckptCreate (trackMany (trackFile st0 fs0 p) L) msg now
  (pr.1, ckptRestore pr.2 fs1 pr.1.id)

/-! ### Association-list and tracking lemmas -/

theorem lookupA_append {α : Type} (l1 l2 : List (String × α)) (q : String) :
    lookupA (l1 ++ l2) q =
      match lookupA l1 q with
      | some v => some v
      | none => lookupA l2 q := by
  induction l1 with
  | nil => simp [lookupA]
  | cons kv t ih =>
    obtain ⟨k, v⟩ := kv
    by_cases hk : k = q <;> simp [lookupA, hk, ih]

theorem lookupA_none_not_mem {α : Type} :
    ∀ (l : List (String × α)) (q : String),
    lookupA l q = none → q ∉ l.map Prod.fst := by
  intro l
  induction l with
  | nil => intro q _; simp
  | cons kv t ih =>
    intro q h
    obtain ⟨k, v⟩ := kv
    by_cases hk : k = q
    · simp [lookupA, hk] at h
    · simp only [lookupA, if_neg hk] at h
      intro hmem
      simp only [List.map_cons, List.mem_cons] at hmem
      rcases hmem with h1 | h1
      · exact hk h1.symm
      · exact ih q h h1

theorem trackFile_lookup_keep (st : CkptManager) (fs : FileSys) (p q : String)
    (h : (lookupA st.tracked q).isSome = true) :
    lookupA (trackFile st fs p).tracked q = lookupA st.tracked q := by
  unfold trackFile
  split
  · rfl
  · simp only [lookupA_append]
    cases hq : lookupA st.tracked q with
    | some v => rfl
    | none => rw [hq] at h; simp at h

theorem trackMany_lookup_keep (L : List (FileSys × String)) :
    ∀ (st : CkptManager) (q : String), (lookupA st.tracked q).isSome = true →
    lookupA (trackMany st L).tracked q = lookupA st.tracked q := by
  induction L with
  | nil => intro st q _; rfl
  | cons fp rest ih =>
    intro st q h
    obtain ⟨fs, p⟩ := fp
    have h1 := trackFile_lookup_keep st fs p q h
    have h2 : (lookupA (trackFile st fs p).tracked q).isSome = true := by
      rw [h1]; exact h
    calc lookupA (trackMany (trackFile st fs p) rest).tracked q
        = lookupA (trackFile st fs p).tracked q := ih _ q h2
      _ = lookupA st.tracked q := h1

theorem trackFile_lookup_self (st : CkptManager) (fs : FileSys) (p : String)
    (h : lookupA st.tracked p = none) :
    lookupA (trackFile st fs p).tracked p = some (snapVal fs p) := by
  unfold trackFile
  split
  · rename_i hs; rw [h] at hs; simp at hs
  · simp [lookupA_append, h, lookupA]

theorem trackFile_nodup (st : CkptManager) (fs : FileSys) (p : String)
    (h : (st.tracked.map Prod.fst).Nodup) :
    ((trackFile st fs p).tracked.map Prod.fst).Nodup := by
  unfold trackFile
  split
  · exact h
  · rename_i hs
    have hp : p ∉ st.tracked.map Prod.fst := by
      apply lookupA_none_not_mem
      cases hl : lookupA st.tracked p with
      | none => rfl
      | some v => rw [hl] at hs; simp at hs
    rw [List.map_append]
    refine List.Nodup.append h (by simp) ?_
    intro x hx hx2
    simp at hx2
    exact hp (hx2 ▸ hx)

theorem trackMany_nodup (L : List (FileSys × String)) :
    ∀ st : CkptManager, (st.tracked.map Prod.fst).Nodup →
    ((trackMany st L).tracked.map Prod.fst).Nodup := by
  induction L with
  | nil => intro st h; exact h
  | cons fp rest ih =>
    intro st h
    obtain ⟨fs, p⟩ := fp
    exact ih _ (trackFile_nodup st fs p h)

theorem snapVal_path (fs : FileSys) (p : String) (s : FileSnapshot)
    (h : snapVal fs p = some s) : s.path = p := by
  unfold snapVal at h
  split at h
  · simp only [Option.some.injEq] at h
    rw [← h]
  · simp at h

theorem trackFile_coherent (st : CkptManager) (fs : FileSys) (p : String)
    (h : trackedCoherent st.tracked) :
    trackedCoherent (trackFile st fs p).tracked := by
  unfold trackFile
  split
  · exact h
  · intro kv hkv s hs
    rcases List.mem_append.mp hkv with hl | hr
    · exact h kv hl s hs
    · simp at hr
      rw [hr] at hs
      simp at hs ⊢
      rw [hr]
      exact snapVal_path fs p s hs

theorem trackMany_coherent (L : List (FileSys × String)) :
    ∀ st : CkptManager, trackedCoherent st.tracked →
    trackedCoherent (trackMany st L).tracked := by
  induction L with
  | nil => intro st h; exact h
  | cons fp rest ih =>
    intro st h
    obtain ⟨fs, p⟩ := fp
    exact ih _ (trackFile_coherent st fs p h)

/-! ### Snapshot-extraction lemmas for `create` -/

theorem filterMap_filter_nil (t : List (String × Option FileSnapshot)) (p : String)
    (hC : trackedCoherent t) (hp : p ∉ t.map Prod.fst) :
    (t.filterMap (fun kv => kv.2)).filter (fun s => decide (s.path = p)) = [] := by
  induction t with
  | nil => rfl
  | cons kv t ih =>
    obtain ⟨k, v⟩ := kv
    have hk : k ≠ p := by simp at hp; exact fun h => hp.1 h.symm
    have hC' : trackedCoherent t := fun kv h s hs => hC kv (List.mem_cons_of_mem _ h) s hs
    have hp' : p ∉ t.map Prod.fst := by simp at hp ⊢; exact hp.2
    cases hv : v with
    | none => simpa [List.filterMap_cons, hv] using ih hC' hp'
    | some s =>
      have hsp : s.path = k := hC (k, v) (List.mem_cons_self _ _) s (by rw [hv])
      have : ¬ s.path = p := by rw [hsp]; exact hk
      simpa [List.filterMap_cons, hv, List.filter_cons, this] using ih hC' hp'

theorem filterMap_filter_unique (l : List (String × Option FileSnapshot)) (p : String)
    (snap : FileSnapshot) (hN : (l.map Prod.fst).Nodup) (hC : trackedCoherent l)
    (hL : lookupA l p = some (some snap)) :
    (l.filterMap (fun kv => kv.2)).filter (fun s => decide (s.path = p)) = [snap] := by
  induction l with
  | nil => simp [lookupA] at hL
  | cons kv t ih =>
    obtain ⟨k, v⟩ := kv
    have hC' : trackedCoherent t := fun kv h s hs => hC kv (List.mem_cons_of_mem _ h) s hs
    rw [List.map_cons, List.nodup_cons] at hN
    by_cases hk : k = p
    · subst hk
      have hv : v = some snap := by simpa [lookupA] using hL
      subst hv
      have hsp : snap.path = k := hC (k, some snap) (List.mem_cons_self _ _) snap rfl
      simpa [List.filterMap_cons, List.filter_cons, hsp]
        using filterMap_filter_nil t k hC' hN.1
    · have hL' : lookupA t p = some (some snap) := by simpa [lookupA, hk] using hL
      cases hv : v with
      | none => simpa [List.filterMap_cons, hv] using ih hN.2 hC' hL'
      | some s =>
        have hsp : s.path = k := hC (k, v) (List.mem_cons_self _ _) s (by rw [hv])
        have : ¬ s.path = p := by rw [hsp]; exact hk
        simpa [List.filterMap_cons, hv, List.filter_cons, this] using ih hN.2 hC' hL'

/-! ### Restore-loop lemmas -/

theorem writeText_writable (fs : FileSys) (p c : String) :
    (writeText fs p c).writable = fs.writable := rfl

theorem restoreSnapshots_frame (snaps : List FileSnapshot) :
    ∀ (fs : FileSys) (q : String), (∀ s ∈ snaps, s.path ≠ q) →
    (restoreSnapshots snaps fs).2.entries q = fs.entries q ∧
      q ∉ (restoreSnapshots snaps fs).1 := by
  induction snaps with
  | nil => intro fs q _; exact ⟨rfl, by simp [restoreSnapshots]⟩
  | cons s rest ih =>
    intro fs q h
    have hs : s.path ≠ q := h s (List.mem_cons_self _ _)
    have hrest : ∀ s' ∈ rest, s'.path ≠ q := fun s' h' => h s' (List.mem_cons_of_mem _ h')
    unfold restoreSnapshots
    split
    · have hq : q ≠ s.path := fun h' => hs h'.symm
      have := ih (writeText fs s.path s.content) q hrest
      refine ⟨?_, ?_⟩
      · rw [this.1]
        simp [writeText, hq]
      · simp only [List.mem_cons]
        push_neg
        exact ⟨hq, this.2⟩
    · exact ih fs q hrest

theorem restoreSnapshots_sub (snaps : List FileSnapshot) :
    ∀ (fs : FileSys) (x : String), x ∈ (restoreSnapshots snaps fs).1 →
    x ∈ snaps.map FileSnapshot.path := by
  induction snaps with
  | nil => intro fs x h; simp [restoreSnapshots] at h
  | cons s rest ih =>
    intro fs x h
    unfold restoreSnapshots at h
    split at h
    · simp only [List.mem_cons] at h
      rcases h with h | h
      · simp [h]
      · simpa using Or.inr (by simpa using ih _ x h)
    · simpa using Or.inr (by simpa using ih _ x h)

theorem restoreSnapshots_not_absent (snaps : List FileSnapshot) :
    ∀ (fs : FileSys) (q : String), fs.entries q ≠ .absent →
    (restoreSnapshots snaps fs).2.entries q ≠ .absent := by
  induction snaps with
  | nil => intro fs q h; exact h
  | cons s rest ih =>
    intro fs q h
    unfold restoreSnapshots
    split
    · apply ih
      by_cases hq : q = s.path
      · simp [writeText, hq]
      · simp only [writeText, if_neg hq]
        exact h
    · exact ih fs q h

theorem restoreSnapshots_unique (snaps : List FileSnapshot) :
    ∀ (fs : FileSys) (p c : String) (m : Nat), fs.writable p = true →
    snaps.filter (fun s => decide (s.path = p)) = [⟨p, c, m⟩] →
    (restoreSnapshots snaps fs).2.entries p = .readable c 0 ∧
      p ∈ (restoreSnapshots snaps fs).1 := by
  induction snaps with
  | nil => intro fs p c m _ hf; simp at hf
  | cons s rest ih =>
    intro fs p c m hw hf
    by_cases hp : s.path = p
    · rw [List.filter_cons_of_pos (by simpa using hp)] at hf
      simp only [List.cons.injEq] at hf
      have hrest : ∀ s' ∈ rest, s'.path ≠ p := by
        intro s' hs' he
        have : s' ∈ rest.filter (fun s => decide (s.path = p)) :=
          List.mem_filter.mpr ⟨hs', by simpa using he⟩
        rw [hf.2] at this
        simp at this
      unfold restoreSnapshots
      rw [if_pos (by rw [hp]; exact hw)]
      have hfr := restoreSnapshots_frame rest (writeText fs s.path s.content) p hrest
      refine ⟨?_, by simp [hp]⟩
      rw [hfr.1]
      simp [writeText, hp, hf.1]
    · rw [List.filter_cons_of_neg (by simpa using hp)] at hf
      unfold restoreSnapshots
      split
      · have := ih (writeText fs s.path s.content) p c m hw hf
        exact ⟨this.1, List.mem_cons_of_mem _ this.2⟩
      · exact ih fs p c m hw hf

/-! ## Claim C1: deny precedence -/

/-- C1.  For every tool name, argument map, mode, and rule configuration,
if any configured deny rule matches the invocation then
`PermissionManager.check` returns Deny, regardless of any matching allow
rule and regardless of the mode. -/
theorem claim1_deny_precedence (mode : String) (allowRules denyRules : List String)
    (tool : String) (args : String → Option String)
    (h : ∃ r ∈ denyRules, (PermissionRule.parse r).matches tool args = true) :
    (PermissionManager.init mode allowRules denyRules).check tool args = .deny := by
  obtain ⟨r, hr, hm⟩ := h
  have hany : (PermissionManager.init mode allowRules denyRules).deny_rules.any
      (fun rl => rl.matches tool args) = true := by
    rw [List.any_eq_true]
    exact ⟨PermissionRule.parse r, List.mem_map_of_mem _ hr, hm⟩
  simp [PermissionManager.check, hany]

/-- Witness for C1 at a concrete deny configuration. -/
theorem claim1_deny_precedence_witness :
    (∃ r ∈ ["Edit"], (PermissionRule.parse r).matches "Edit" emptyArgs = true) ∧
    (PermissionManager.init "accept_edits" ["Edit"] ["Edit"]).check "Edit" emptyArgs
      = .deny :=
  ⟨by decide, claim1_deny_precedence "accept_edits" ["Edit"] ["Edit"] "Edit" emptyArgs
    (by decide)⟩

/-! ## Claim C2: mode defaults (corrected: deny rules also apply in
bypass mode) -/

/-- C2 counterexample.  The claim states that in Bypass mode `check`
returns Allow for every tool regardless of the configured rules; but a
matching deny rule is consulted before the mode and yields Deny. -/
theorem claim2_bypass_counterexample :
    (PermissionManager.init "bypass" [] ["Read"]).check "Read" emptyArgs = .deny ∧
    (PermissionManager.init "bypass" [] ["Read"]).check "Read" emptyArgs ≠ .allow := by
  constructor
  · decide
  · decide

/-- C2 as amended.  With no configured rules, Plan mode yields Ask for
`Edit` and Allow for `Read` on every argument map; and in Bypass mode
`check` returns Allow for every tool and argument map on which no deny
rule matches, regardless of the allow rules. -/
theorem claim2_mode_defaults (args : String → Option String) (tool : String)
    (allowRules denyRules : List String)
    (hd : ∀ r ∈ denyRules, (PermissionRule.parse r).matches tool args = false) :
    (PermissionManager.init "plan" [] []).check "Edit" args = .ask ∧
    (PermissionManager.init "plan" [] []).check "Read" args = .allow ∧
    (PermissionManager.init "bypass" allowRules denyRules).check tool args = .allow := by
  refine ⟨rfl, rfl, ?_⟩
  have hany : (List.map PermissionRule.parse denyRules).any
      (fun rl => rl.matches tool args) = false := by
    rw [List.any_eq_false]
    intro x hx
    obtain ⟨r, hr, hrx⟩ := List.mem_map.mp hx
    rw [← hrx]
    simp [hd r hr]
  simp only [PermissionManager.check, PermissionManager.init, hany]
  cases hA : (List.map PermissionRule.parse allowRules).any
      (fun rl => rl.matches tool args) <;> simp [hA] <;> rfl

/-- Witness for the amended C2 at a concrete configuration whose deny
rules do not match. -/
theorem claim2_mode_defaults_witness :
    (∀ r ∈ ["Edit"], (PermissionRule.parse r).matches "Bash" emptyArgs = false) ∧
    ((PermissionManager.init "plan" [] []).check "Edit" emptyArgs = .ask ∧
     (PermissionManager.init "plan" [] []).check "Read" emptyArgs = .allow ∧
     (PermissionManager.init "bypass" ["Read"] ["Edit"]).check "Bash" emptyArgs
       = .allow) :=
  ⟨by decide, claim2_mode_defaults emptyArgs "Bash" ["Read"] ["Edit"] (by decide)⟩

/-! ## Claim C4: event identities -/

theorem eventRepoIds_from (n : Nat) : ∀ st : InMemoryEventRepository,
    (eventRepoIds st n).1 = List.range' st.nextId n := by
  induction n with
  | zero => intro st; rfl
  | succ n ih => intro st; simp [eventRepoIds, eventRepoNextId, ih, List.range']

/-- C4.  On a fresh in-memory event log, `N` sequential identity
assignments return exactly `1, 2, …, N` (`List.range' 1 N`): strictly
increasing, gap-free, starting at 1; the counter is log-global (it ignores
the stored events, hence the run they belong to) and `save` does not
disturb it. -/
theorem claim4_event_identities (N : Nat) (st : InMemoryEventRepository)
    (es : List Event) (e : Event) :
    (eventRepoIds eventRepoInit N).1 = List.range' 1 N ∧
    (eventRepoNextId { st with events := es }).1 = (eventRepoNextId st).1 ∧
    (eventRepoSave st e).nextId = st.nextId :=
  ⟨eventRepoIds_from N eventRepoInit, rfl, rfl⟩

/-! ## Claim C8: `:*` prefix patterns (corrected: the code removes every
occurrence of `:*`, not just a trailing one) -/

/-- The prefix described by the claim's words: the pattern with its `:*`
suffix stripped (defined for comparison with the implementation). -/
def stripColonStarSuffix (p : String) : String :=
  if p.toList.length < 2 then p
  else if (p.toList.drop (p.toList.length - 2)) = [':', '*'] then
    ⟨p.toList.take (p.toList.length - 2)⟩
  else p

/-- C8 counterexample.  For the pattern `"x:*y:*"` (which contains `:*`)
and the value `"xy"`, the code matches — it tests
`startswith("xy")` after removing both occurrences of `:*` — while the
claim's prefix (`"x:*y"`, the pattern minus its `:*` suffix) does not
begin `"xy"`. -/
theorem claim8_suffix_counterexample :
    strContains "x:*y:*" ":*" = true ∧
    patternMatches "x:*y:*" "xy" = true ∧
    stripColonStarSuffix "x:*y:*" = "x:*y" ∧
    strStartsWith "xy" (stripColonStarSuffix "x:*y:*") = false := by
  refine ⟨by decide, by decide, by decide, by decide⟩

/-- C8 as amended.  For every rule pattern containing `:*` and every value
string, matching is a literal prefix test where the prefix is the pattern
with **every** occurrence of `:*` removed (for the common case of a single
trailing `:*` this coincides with stripping the suffix). -/
theorem claim8_prefix_replace (p v : String) (h : strContains p ":*" = true) :
    patternMatches p v = strStartsWith v (strReplace p ":*" "") := by
  simp [patternMatches, h]

/-- Witness for the amended C8 on the spec's own example pattern. -/
theorem claim8_prefix_replace_witness :
    strContains "npm run:*" ":*" = true ∧
    patternMatches "npm run:*" "npm run test"
      = strStartsWith "npm run test" (strReplace "npm run:*" ":*" "") :=
  ⟨by decide, claim8_prefix_replace "npm run:*" "npm run test" (by decide)⟩

/-! ## Claim C5: the run transition table -/

theorem runTransitionTo_none_iff (r : Run) (s : RunStatus) (now : Nat) :
    (runTransitionTo r s now).2 = none ↔ runCanTransitionTo r s = true := by
  unfold runTransitionTo
  split <;> simp_all

theorem run_terminal_op (r : Run) (h : runIsTerminal r = true) (op : RunOp) (now : Nat) :
    runApplyOp r op now = r := by
  have hv : runValidTransitions r.status = [] := by
    simp only [runIsTerminal, Bool.decide_or, Bool.or_eq_true, decide_eq_true_eq] at h
    rcases h with h | h | h <;> rw [h] <;> rfl
  cases op <;>
    simp [runApplyOp, runStart, runComplete, runFail, runCancel, runTransitionTo,
      runCanTransitionTo, hv]

/-- C5.  Run status moves only along the fixed transition table: `start`
succeeds exactly from Pending, `complete` and `fail` exactly from Running,
`cancel` exactly from Pending or Running; any rejected transition raises an
invalid-state error whose message names the current and the requested
status; and from a terminal status every operation sequence leaves the run
unchanged. -/
theorem claim5_run_transitions (r : Run) (now : Nat) (l : List (RunOp × Nat)) :
    ((runStart r now).2 = none ↔ r.status = .pending) ∧
    ((runComplete r now).2 = none ↔ r.status = .running) ∧
    ((runFail r now).2 = none ↔ r.status = .running) ∧
    ((runCancel r now).2 = none ↔ (r.status = .pending ∨ r.status = .running)) ∧
    (∀ s : RunStatus, (runTransitionTo r s now).2 = none ∨
      (runTransitionTo r s now).2 =
        some ("Cannot transition from " ++ r.status.value ++ " to " ++ s.value)) ∧
    (runIsTerminal r = true → runApplyOps r l = r) := by
  refine ⟨?_, ?_, ?_, ?_, ?_, ?_⟩
  · rw [runStart, runTransitionTo_none_iff]
    cases h : r.status <;> simp [runCanTransitionTo, runValidTransitions, h]
  · rw [runComplete, runTransitionTo_none_iff]
    cases h : r.status <;> simp [runCanTransitionTo, runValidTransitions, h]
  · rw [runFail, runTransitionTo_none_iff]
    cases h : r.status <;> simp [runCanTransitionTo, runValidTransitions, h]
  · rw [runCancel, runTransitionTo_none_iff]
    cases h : r.status <;> simp [runCanTransitionTo, runValidTransitions, h]
  · intro s
    unfold runTransitionTo
    split
    · exact Or.inl rfl
    · exact Or.inr rfl
  · intro h
    induction l with
    | nil => rfl
    | cons x rest ih =>
      obtain ⟨op, n⟩ := x
      simpa [runApplyOps, run_terminal_op r h op n] using ih

/-- Witness for C5 at a concrete run and operation sequence: a completed
run is left untouched by further operations. -/
theorem claim5_run_transitions_witness :
    runIsTerminal
      { id := "run-1", goal := "g", status := .completed, repo_root := ".",
        branch := none, created_at := 0, updated_at := 0 } = true ∧
    runApplyOps
      { id := "run-1", goal := "g", status := .completed, repo_root := ".",
        branch := none, created_at := 0, updated_at := 0 }
      [(.start, 1), (.cancel, 2), (.fail, 3)] =
      { id := "run-1", goal := "g", status := .completed, repo_root := ".",
        branch := none, created_at := 0, updated_at := 0 } :=
  ⟨by decide,
    (claim5_run_transitions
      { id := "run-1", goal := "g", status := .completed, repo_root := ".",
        branch := none, created_at := 0, updated_at := 0 }
      0 [(.start, 1), (.cancel, 2), (.fail, 3)]).2.2.2.2.2 (by decide)⟩

/-! ## Claim C9: failed transitions mutate nothing -/

/-- C9.  Every state-transition operation that raises `InvalidStateError`
leaves its entity completely unchanged — all validation happens before any
mutation, for `Run.start/complete/fail/cancel`,
`Task.assign/block/unblock/complete/fail` and
`Approval.approve/reject/expire`. -/
theorem claim9_no_mutation_on_error (r : Run) (t : Task) (a : Approval) (now : Nat)
    (w reason em rb cm : String) (orefs : Option (List String)) :
    ((runStart r now).2.isSome = true → (runStart r now).1 = r) ∧
    ((runComplete r now).2.isSome = true → (runComplete r now).1 = r) ∧
    ((runFail r now).2.isSome = true → (runFail r now).1 = r) ∧
    ((runCancel r now).2.isSome = true → (runCancel r now).1 = r) ∧
    ((taskAssign t w now).2.isSome = true → (taskAssign t w now).1 = t) ∧
    ((taskBlock t reason now).2.isSome = true → (taskBlock t reason now).1 = t) ∧
    ((taskUnblock t now).2.isSome = true → (taskUnblock t now).1 = t) ∧
    ((taskComplete t orefs now).2.isSome = true → (taskComplete t orefs now).1 = t) ∧
    ((taskFail t em now).2.isSome = true → (taskFail t em now).1 = t) ∧
    ((approvalApprove a rb cm now).2.isSome = true → (approvalApprove a rb cm now).1 = a) ∧
    ((approvalReject a rb cm now).2.isSome = true → (approvalReject a rb cm now).1 = a) ∧
    ((approvalExpire a now).2.isSome = true → (approvalExpire a now).1 = a) := by
  refine ⟨?_, ?_, ?_, ?_, ?_, ?_, ?_, ?_, ?_, ?_, ?_, ?_⟩
  · intro h; unfold runStart runTransitionTo at h ⊢; split at h <;> simp_all
  · intro h; unfold runComplete runTransitionTo at h ⊢; split at h <;> simp_all
  · intro h; unfold runFail runTransitionTo at h ⊢; split at h <;> simp_all
  · intro h; unfold runCancel runTransitionTo at h ⊢; split at h <;> simp_all
  · intro h; unfold taskAssign at h ⊢; split at h <;> simp_all
  · intro h; unfold taskBlock at h ⊢; split at h <;> simp_all
  · intro h; unfold taskUnblock at h ⊢; split at h <;> simp_all
  · intro h; unfold taskComplete at h ⊢; split at h <;> simp_all
  · intro h; unfold taskFail at h ⊢; split at h <;> simp_all
  · intro h; unfold approvalApprove approvalResolve at h ⊢
    split at h
    · simp_all
    · split at h <;> simp_all
  · intro h; unfold approvalReject approvalResolve at h ⊢
    split at h
    · simp_all
    · split at h <;> simp_all
  · intro h; unfold approvalExpire at h ⊢; split at h <;> simp_all

/-- Witness for C9: a run in Completed status, a task in Blocked status
and an expired approval are all returned unchanged by a failing
operation. -/
theorem claim9_no_mutation_on_error_witness :
    (runStart
      { id := "run-2", goal := "g", status := .completed, repo_root := ".",
        branch := none, created_at := 0, updated_at := 0 } 7).1 =
      { id := "run-2", goal := "g", status := .completed, repo_root := ".",
        branch := none, created_at := 0, updated_at := 0 } :=
  (claim9_no_mutation_on_error
    { id := "run-2", goal := "g", status := .completed, repo_root := ".",
      branch := none, created_at := 0, updated_at := 0 }
    { id := "task-1", run_id := "run-2", title := "t", description := "",
      status := .blocked, owner_worker_id := none, priority := 0,
      input_refs := [], output_refs := [], error_message := none,
      created_at := 0, updated_at := 0 }
    { id := "apr-1", run_id := "run-2", type := .file_edit, target := "a",
      status := .expired, diff_content := none, requester_worker_id := none,
      requester_task_id := none, risk_score := 1, risk_reason := "",
      created_at := 0, expires_at := none, resolved_at := none,
      resolved_by := none, comment := "" }
    7 "w" "r" "e" "u" "c" none).1 (by decide)

/-! ## Claim C6: approval resolution legality -/

theorem approvalIsExpired_iff (a : Approval) (now : Nat) :
    approvalIsExpired a now = true ↔
      (a.status = .expired ∨ ∃ exp, a.expires_at = some exp ∧ exp < now) := by
  unfold approvalIsExpired
  split
  · rename_i h
    simp [h]
  · rename_i h
    cases he : a.expires_at <;> simp [he, h]

/-- C6.  `approve` and `reject` succeed exactly when the approval is
Pending and not expired (expired meaning status Expired or an `expires_at`
instant earlier than now); `expire` succeeds exactly from Pending; and an
approval that is Approved, Rejected or Expired is never changed by any of
the three operations. -/
theorem claim6_approval_resolution (a : Approval) (rb cm : String) (now : Nat) :
    ((approvalApprove a rb cm now).2 = none ↔
      (a.status = .pending ∧ approvalIsExpired a now = false)) ∧
    ((approvalReject a rb cm now).2 = none ↔
      (a.status = .pending ∧ approvalIsExpired a now = false)) ∧
    (approvalIsExpired a now = true ↔
      (a.status = .expired ∨ ∃ exp, a.expires_at = some exp ∧ exp < now)) ∧
    ((approvalExpire a now).2 = none ↔ a.status = .pending) ∧
    ((approvalApprove a rb cm now).1.status =
      if a.status = .pending ∧ approvalIsExpired a now = false then .approved
      else a.status) ∧
    ((approvalReject a rb cm now).1.status =
      if a.status = .pending ∧ approvalIsExpired a now = false then .rejected
      else a.status) ∧
    ((approvalExpire a now).1.status =
      if a.status = .pending then .expired else a.status) ∧
    ((a.status = .approved ∨ a.status = .rejected ∨ a.status = .expired) →
      (approvalApprove a rb cm now).1 = a ∧ (approvalReject a rb cm now).1 = a ∧
        (approvalExpire a now).1 = a) := by
  have hone : ∀ new rb' cm',
      (approvalResolve a new rb' cm' now).2 = none ↔
        (a.status = .pending ∧ approvalIsExpired a now = false) := by
    intro new rb' cm'
    unfold approvalResolve
    by_cases hp : a.status = .pending
    · by_cases he : approvalIsExpired a now = true <;> simp [hp, he]
    · simp [hp]
  have hst : ∀ new rb' cm',
      (approvalResolve a new rb' cm' now).1.status =
        if a.status = .pending ∧ approvalIsExpired a now = false then new
        else a.status := by
    intro new rb' cm'
    unfold approvalResolve
    by_cases hp : a.status = .pending
    · by_cases he : approvalIsExpired a now = true <;> simp [hp, he]
    · simp [hp]
  refine ⟨hone _ _ _, hone _ _ _, approvalIsExpired_iff a now, ?_, hst _ _ _,
    hst _ _ _, ?_, ?_⟩
  · unfold approvalExpire
    by_cases hp : a.status = .pending <;> simp [hp]
  · unfold approvalExpire
    by_cases hp : a.status = .pending <;> simp [hp]
  · intro h
    have hp : a.status ≠ .pending := by
      rcases h with h | h | h <;> rw [h] <;> simp
    refine ⟨?_, ?_, ?_⟩ <;>
      simp [approvalApprove, approvalReject, approvalResolve, approvalExpire, hp]

/-- Witness for C6: an already-approved approval is left unchanged by all
three operations. -/
theorem claim6_approval_resolution_witness :
    (approvalApprove
        { id := "apr-2", run_id := "run-3", type := .bash_command, target := "ls",
          status := .approved, diff_content := none, requester_worker_id := none,
          requester_task_id := none, risk_score := 3, risk_reason := "",
          created_at := 0, expires_at := some 10, resolved_at := some 5,
          resolved_by := some "user", comment := "ok" } "user" "again" 20).1 =
      { id := "apr-2", run_id := "run-3", type := .bash_command, target := "ls",
        status := .approved, diff_content := none, requester_worker_id := none,
        requester_task_id := none, risk_score := 3, risk_reason := "",
        created_at := 0, expires_at := some 10, resolved_at := some 5,
        resolved_by := some "user", comment := "ok" } :=
  ((claim6_approval_resolution
      { id := "apr-2", run_id := "run-3", type := .bash_command, target := "ls",
        status := .approved, diff_content := none, requester_worker_id := none,
        requester_task_id := none, risk_score := 3, risk_reason := "",
        created_at := 0, expires_at := some 10, resolved_at := some 5,
        resolved_by := some "user", comment := "ok" }
      "user" "again" 20).2.2.2.2.2.2.2 (by decide)).1

/-! ## Claim C7: deterministic risk assessment -/

theorem riskFold_spec (f : String → Bool) (mk : String → String)
    (g : Nat × List String → String → Nat × List String)
    (hg : ∀ acc p, g acc p = if f p then (min 5 (acc.1 + 1), acc.2 ++ [mk p]) else acc) :
    ∀ (l : List String) (b : Nat) (rs : List String), b ≤ 5 →
    l.foldl g (b, rs) =
      (min 5 (b + (l.filter f).length), rs ++ (l.filter f).map mk) := by
  intro l
  induction l with
  | nil =>
    intro b rs hb
    simp [Nat.min_eq_right hb]
  | cons p t ih =>
    intro b rs hb
    rw [List.foldl_cons, hg]
    by_cases hf : f p
    · rw [if_pos hf, ih (min 5 (b + 1)) (rs ++ [mk p]) (by omega),
        List.filter_cons_of_pos (by simpa using hf)]
      simp only [List.length_cons, List.map_cons, List.append_assoc,
        List.singleton_append, Prod.mk.injEq]
      constructor
      · omega
      · trivial
    · rw [if_neg hf, ih b rs hb, List.filter_cons_of_neg (by simpa using hf)]

/-- The matched reason fragments, in loop order: one per dangerous pattern
occurring in the target, then one per sensitive path occurring in the
lowercased target. -/
def riskFragments (target : String) : List String :=
  (dangerousPatterns.filter (fun p => strContains target p)).map
      (fun p => "contains '" ++ p ++ "'") ++
    (sensitivePaths.filter (fun p => strContains (strLower target) p)).map
      (fun p => "touches sensitive path '" ++ p ++ "'")

theorem baseRisk_le_five (ty : ApprovalType) : baseRisk ty ≤ 5 := by
  cases ty <;> decide

theorem assessRiskPair_spec (ty : ApprovalType) (target : String) :
    assessRiskPair ty target =
      (min 5 (baseRisk ty + (riskFragments target).length),
        if (riskFragments target).isEmpty then "standard " ++ ty.value
        else strJoin ", " (riskFragments target)) := by
  unfold assessRiskPair
  dsimp only
  rw [riskFold_spec (fun p => strContains target p)
      (fun p => "contains '" ++ p ++ "'") (riskStepDangerous target) (fun _ _ => rfl)
      dangerousPatterns (baseRisk ty) [] (baseRisk_le_five ty),
    riskFold_spec (fun p => strContains (strLower target) p)
      (fun p => "touches sensitive path '" ++ p ++ "'") (riskStepSensitive target)
      (fun _ _ => rfl) sensitivePaths _ _ (by omega)]
  simp only [riskFragments, List.nil_append, List.length_append, List.length_map,
    Prod.mk.injEq]
  constructor
  · omega
  · trivial

/-- C7.  `Approval.create` computes a deterministic risk score and reason:
the score is the per-type base plus one per matched dangerous or sensitive
fragment, capped at 5; the reason joins the matched fragments with `", "`
or falls back to `standard <type>`; in particular `"rm -rf /tmp/x"` as a
BashCommand scores at least 4 and `".env"` as a FileEdit scores at least 3
with a reason mentioning `.env`. -/
theorem claim7_risk_assessment (run_id target : String) (ty : ApprovalType)
    (diff wk tk : Option String) (ux : String) (now : Nat) :
    ((approvalCreate run_id ty target diff wk tk ux now).risk_score =
      min 5 (baseRisk ty + (riskFragments target).length)) ∧
    ((approvalCreate run_id ty target diff wk tk ux now).risk_reason =
      (if (riskFragments target).isEmpty then "standard " ++ ty.value
       else strJoin ", " (riskFragments target))) ∧
    4 ≤ (approvalCreate "r1" .bash_command "rm -rf /tmp/x" none none none
          "u1" 0).risk_score ∧
    3 ≤ (approvalCreate "r1" .file_edit ".env" none none none "u1" 0).risk_score ∧
    strContains (approvalCreate "r1" .file_edit ".env" none none none
          "u1" 0).risk_reason ".env" = true := by
  refine ⟨?_, ?_, by decide, by decide, by decide⟩
  · show (assessRiskPair ty target).1 = _
    rw [assessRiskPair_spec]
  · show (assessRiskPair ty target).2 = _
    rw [assessRiskPair_spec]

/-! ## Claims C3 and C10: checkpoint round trip and restore frame -/

theorem create_restore (st : CkptManager) (msg : String) (now : Nat) (fs1 : FileSys) :
    ckptRestore (ckptCreate st msg now).2 fs1 (ckptCreate st msg now).1.id =
      .ok (restoreSnapshots (st.tracked.filterMap (fun kv => kv.2)) fs1) := by
  unfold ckptCreate ckptRestore
  dsimp only
  simp [lookupN]

/-- C3.  A file that exists (readable content `c`) when it is first tracked
is reproduced byte-for-byte at its path by restoring the checkpoint created
from that epoch — whatever else was tracked before or after and however the
filesystem was mutated in between (`fs1`) — provided the path is writable
at restore time; and the path is reported among the restored paths. -/
theorem claim3_checkpoint_roundtrip
    (st0 : CkptManager) (fs0 : FileSys) (p c : String) (m : Nat)
    (L : List (FileSys × String)) (msg : String) (now : Nat) (fs1 : FileSys)
    (hN : (st0.tracked.map Prod.fst).Nodup)
    (hC : trackedCoherent st0.tracked)
    (hnew : lookupA st0.tracked p = none)
    (hex : fs0.entries p = .readable c m)
    (hw : fs1.writable p = true) :
    ∃ ps fs2,
      (roundTrip st0 fs0 p L msg now fs1).2 = .ok (ps, fs2) ∧
      fs2.entries p = .readable c 0 ∧
      p ∈ ps := by
  have hsnap : snapVal fs0 p = some { path := p, content := c, mtime := m } := by
    unfold snapVal
    rw [hex]
  have h1 : lookupA (trackFile st0 fs0 p).tracked p =
      some (some { path := p, content := c, mtime := m }) := by
    rw [trackFile_lookup_self st0 fs0 p hnew, hsnap]
  have h2 : lookupA (trackMany (trackFile st0 fs0 p) L).tracked p =
      some (some { path := p, content := c, mtime := m }) := by
    rw [trackMany_lookup_keep L (trackFile st0 fs0 p) p (by rw [h1]; rfl), h1]
  have hN2 : ((trackMany (trackFile st0 fs0 p) L).tracked.map Prod.fst).Nodup :=
    trackMany_nodup L _ (trackFile_nodup st0 fs0 p hN)
  have hC2 : trackedCoherent (trackMany (trackFile st0 fs0 p) L).tracked :=
    trackMany_coherent L _ (trackFile_coherent st0 fs0 p hC)
  have hfil : ((trackMany (trackFile st0 fs0 p) L).tracked.filterMap
      (fun kv => kv.2)).filter (fun s => decide (s.path = p)) =
      [{ path := p, content := c, mtime := m }] :=
    filterMap_filter_unique _ p _ hN2 hC2 h2
  obtain ⟨hE, hM⟩ := restoreSnapshots_unique
    ((trackMany (trackFile st0 fs0 p) L).tracked.filterMap (fun kv => kv.2))
    fs1 p c m hw hfil
  refine ⟨_, _, ?_, hE, hM⟩
  show ckptRestore (ckptCreate (trackMany (trackFile st0 fs0 p) L) msg now).2 fs1
      (ckptCreate (trackMany (trackFile st0 fs0 p) L) msg now).1.id = _
  rw [create_restore]

/-- Concrete manager, filesystems and tracked file for the C3 witness. -/
def cStZero : CkptManager :=
  { tracked := [], turn := 0, store := [], nextCkptId := 0 }

/-- Filesystem at tracking time for the C3 witness. -/
def cFsZero : FileSys :=
  { entries := fun q => if q = "/w/a.txt" then .readable "hello" 7 else .absent,
    writable := fun _ => true }

/-- Mutated filesystem at restore time for the C3 witness. -/
def cFsOne : FileSys :=
  { entries := fun q => if q = "/w/a.txt" then .readable "MUTATED" 9 else .absent,
    writable := fun _ => true }

/-- Witness for C3 on a concrete tracked file. -/
theorem claim3_checkpoint_roundtrip_witness :
    ∃ ps fs2,
      (roundTrip cStZero cFsZero "/w/a.txt" [] "before edit" 3 cFsOne).2 =
        .ok (ps, fs2) ∧
      fs2.entries "/w/a.txt" = .readable "hello" 0 ∧
      "/w/a.txt" ∈ ps :=
  claim3_checkpoint_roundtrip cStZero cFsZero "/w/a.txt" "hello" 7 [] "before edit" 3
    cFsOne (by decide) (by decide) (by decide) (by decide) (by decide)

/-- C10.  A path tracked while no readable file existed there is recorded
as `None`, is excluded from the created checkpoint, and restore leaves the
file later created there untouched; restore touches no path outside the
checkpoint's snapshots, reports only snapshot paths, and never turns an
existing file into an absent one. -/
theorem claim10_restore_frame
    (st0 : CkptManager) (fs0 : FileSys) (p msg : String) (now : Nat) (fs1 : FileSys)
    (d : String) (mt : Nat)
    (hC : trackedCoherent st0.tracked)
    (hnew : lookupA st0.tracked p = none)
    (hnoread : (fs0.entries p).isReadable = false)
    (hlater : fs1.entries p = .readable d mt) :
    ∃ ps fs2,
      (roundTrip st0 fs0 p [] msg now fs1).2 = .ok (ps, fs2) ∧
      lookupA (trackFile st0 fs0 p).tracked p = some none ∧
      (∀ s ∈ (roundTrip st0 fs0 p [] msg now fs1).1.snapshots, s.path ≠ p) ∧
      fs2.entries p = .readable d mt ∧
      p ∉ ps ∧
      (∀ q, (∀ s ∈ (roundTrip st0 fs0 p [] msg now fs1).1.snapshots, s.path ≠ q) →
        fs2.entries q = fs1.entries q ∧ q ∉ ps) ∧
      (∀ x ∈ ps,
        x ∈ (roundTrip st0 fs0 p [] msg now fs1).1.snapshots.map FileSnapshot.path) ∧
      (∀ q, fs1.entries q ≠ .absent → fs2.entries q ≠ .absent) := by
  have hsnap : snapVal fs0 p = none := by
    cases hfe : fs0.entries p with
    | absent => unfold snapVal; rw [hfe]
    | unreadable => unfold snapVal; rw [hfe]
    | readable c m => rw [hfe] at hnoread; simp [FileState.isReadable] at hnoread
  have hlook : lookupA (trackFile st0 fs0 p).tracked p = some none := by
    rw [trackFile_lookup_self st0 fs0 p hnew, hsnap]
  have htr : (trackFile st0 fs0 p).tracked = st0.tracked ++ [(p, none)] := by
    unfold trackFile
    rw [if_neg (by rw [hnew]; simp), hsnap]
  have hsnaps : (ckptCreate (trackMany (trackFile st0 fs0 p) []) msg now).1.snapshots =
      (trackFile st0 fs0 p).tracked.filterMap (fun kv => kv.2) := rfl
  have hnop : ∀ s ∈ (trackFile st0 fs0 p).tracked.filterMap (fun kv => kv.2),
      s.path ≠ p := by
    intro s hs he
    rw [htr, List.filterMap_append] at hs
    rcases List.mem_append.mp hs with hsl | hsl
    · obtain ⟨kv, hkv, hkv2⟩ := List.mem_filterMap.mp hsl
      have hpath : s.path = kv.1 := hC kv hkv s hkv2
      have hmem : kv.1 ∈ st0.tracked.map Prod.fst := List.mem_map_of_mem _ hkv
      rw [hpath] at he
      exact lookupA_none_not_mem st0.tracked p hnew (he ▸ hmem)
    · simp [List.filterMap] at hsl
  have hpframe := restoreSnapshots_frame
    ((trackFile st0 fs0 p).tracked.filterMap (fun kv => kv.2)) fs1 p hnop
  refine ⟨(restoreSnapshots ((trackFile st0 fs0 p).tracked.filterMap
        (fun kv => kv.2)) fs1).1,
      (restoreSnapshots ((trackFile st0 fs0 p).tracked.filterMap
        (fun kv => kv.2)) fs1).2,
      ?_, hlook, ?_, ?_, hpframe.2, ?_, ?_, ?_⟩
  · show ckptRestore (ckptCreate (trackMany (trackFile st0 fs0 p) []) msg now).2 fs1
        (ckptCreate (trackMany (trackFile st0 fs0 p) []) msg now).1.id = _
    rw [create_restore]
    rfl
  · exact hnop
  · rw [hpframe.1, hlater]
  · intro q hq
    exact restoreSnapshots_frame _ fs1 q hq
  · intro x hx
    exact restoreSnapshots_sub _ fs1 x hx
  · intro q hq
    exact restoreSnapshots_not_absent _ fs1 q hq

/-- Filesystem at tracking time for the C10 witness: the tracked path does
not exist yet. -/
def xFsZero : FileSys :=
  { entries := fun _ => .absent, writable := fun _ => true }

/-- Filesystem at restore time for the C10 witness: a file has since been
created at the tracked path. -/
def xFsOne : FileSys :=
  { entries := fun q => if q = "/w/new.txt" then .readable "fresh" 4 else .absent,
    writable := fun _ => true }

/-- Witness for C10 on a concrete newly-created file. -/
theorem claim10_restore_frame_witness :
    ∃ ps fs2,
      (roundTrip cStZero xFsZero "/w/new.txt" [] "noop" 5 xFsOne).2 = .ok (ps, fs2) ∧
      lookupA (trackFile cStZero xFsZero "/w/new.txt").tracked "/w/new.txt"
        = some none ∧
      (∀ s ∈ (roundTrip cStZero xFsZero "/w/new.txt" [] "noop" 5 xFsOne).1.snapshots,
        s.path ≠ "/w/new.txt") ∧
      fs2.entries "/w/new.txt" = .readable "fresh" 4 ∧
      "/w/new.txt" ∉ ps ∧
      (∀ q, (∀ s ∈ (roundTrip cStZero xFsZero "/w/new.txt" [] "noop"
          5 xFsOne).1.snapshots, s.path ≠ q) →
        fs2.entries q = xFsOne.entries q ∧ q ∉ ps) ∧
      (∀ x ∈ ps, x ∈ (roundTrip cStZero xFsZero "/w/new.txt" [] "noop"
          5 xFsOne).1.snapshots.map FileSnapshot.path) ∧
      (∀ q, xFsOne.entries q ≠ .absent → fs2.entries q ≠ .absent) :=
  claim10_restore_frame cStZero xFsZero "/w/new.txt" "noop" 5 xFsOne "fresh" 4
    (by decide) (by decide) (by decide) (by decide)

end LatticeCli
